import Mathlib

/-!
Verification development for the Ecritoire writing-style backend.

The Python sources `app/services/ai/style_analyzer.py` and
`app/services/ai/content_generator.py` (plus the controller
`app/controllers/samples.py`) are shallowly embedded below.  Python strings
are modelled as Lean `String`/`List Char`; Python floats are modelled as
exact rationals `ℚ` (and `ℝ` where `numpy` takes a square root); Python
dicts with a fixed key set become structures, and dicts with dynamic keys
become association lists kept in insertion order.  Regular-expression
operations of the source are modelled by direct character scans with the
same semantics on the inputs the code feeds them (ASCII case folding;
the `\w`-class is modelled as alphanumeric-or-underscore).
-/

/-! ## Basic character and string utilities -/

/-- The apostrophe character (U+0027), used by the informal-marker list. -/
def aposChar : Char := Char.ofNat 39

/-- Python `str.strip` / `\s` whitespace class: space, tab, LF, VT, FF, CR. -/
def pyIsSpace (c : Char) : Bool :=
  c == ' ' || c == '\t' || c == '\n' || c == Char.ofNat 11 || c == Char.ofNat 12 || c == '\r'

/-- The regex `\w` word-character class (ASCII part): alphanumeric or underscore. -/
def isWordChar (c : Char) : Bool := c.isAlphanum || c == '_'

/-- ASCII lower-casing of one character, modelling Python `str.lower` on the
ASCII texts handled here. -/
def pyLowerChar (c : Char) : Char :=
  if 'A' ≤ c && c ≤ 'Z' then Char.ofNat (c.toNat + 32) else c

/-- Python `str.lower`. -/
def pyLower (s : String) : String := ⟨s.data.map pyLowerChar⟩

/-- Does `hay` start with `needle`? -/
def startsWithL : List Char → List Char → Bool
  | _, [] => true
  | [], _ :: _ => false
  | h :: hs, n :: ns => h == n && startsWithL hs ns

/-- Python substring containment `needle in hay`. -/
def containsL (hay needle : List Char) : Bool :=
  if startsWithL hay needle then true
  else
    match hay with
    | [] => false
    | _ :: t => containsL t needle

/-- Python `needle in hay` on strings. -/
def containsS (hay needle : String) : Bool := containsL hay.data needle.data

/-- Split a character list at every delimiter character (one split per
delimiter occurrence), as `re.split(r'[c...]', s)` does: adjacent delimiters
produce empty pieces. -/
def splitOnPred (p : Char → Bool) : List Char → List (List Char)
  | [] => [[]]
  | c :: t =>
    let r := splitOnPred p t
    if p c then [] :: r
    else
      match r with
      | [] => [[c]]
      | h :: t' => (c :: h) :: t'

/-- Python `str.strip` on a character list. -/
def pyStripL (cs : List Char) : List Char :=
  ((cs.dropWhile pyIsSpace).reverse.dropWhile pyIsSpace).reverse

/-- Python `str.strip`. -/
def pyStrip (s : String) : String := ⟨pyStripL s.data⟩

/-- Python `str.split()` with no separator: split on whitespace runs,
dropping empty pieces. -/
def pySplitWhite (s : String) : List String :=
  ((splitOnPred pyIsSpace s.data).filter (· ≠ [])).map (⟨·⟩)

/-- Python `sep.join(pieces)`. -/
def joinStr (sep : String) : List String → String
  | [] => ""
  | [s] => s
  | s :: rest => s ++ sep ++ joinStr sep rest

/-- Does `s` end with `suf`? (Python `str.endswith`.) -/
def strEndsWith (s suf : List Char) : Bool := startsWithL s.reverse suf.reverse

/-- Auxiliary scan for `countOcc`, with fuel. -/
def countOccAux (needle : List Char) : Nat → List Char → Nat
  | 0, _ => 0
  | _ + 1, [] => 0
  | n + 1, cs@(_ :: t) =>
    if startsWithL cs needle then 1 + countOccAux needle n (cs.drop needle.length)
    else countOccAux needle n t

/-- Python `str.count`: non-overlapping occurrences, scanning left to right. -/
def countOcc (hay needle : List Char) : Nat := countOccAux needle hay.length hay

/-- Count occurrences of a single character. -/
def countChar (s : String) (c : Char) : Nat := s.data.countP (· == c)

/-- Maximal runs of word characters of a text, as `re.findall(r'\b\w+\b', s)`
returns them. -/
def wordRuns (s : String) : List String :=
  ((splitOnPred (fun c => !isWordChar c) s.data).filter (· ≠ [])).map (⟨·⟩)

/-! ## StyleAnalyzer: fixed word lists (from `StyleAnalyzer.__init__`) -/

/-- Stop-word set of the analyzer. -/
def stopWords : List String :=
  ["a", "an", "and", "are", "as", "at", "be", "by", "for", "from",
   "has", "he", "in", "is", "it", "its", "of", "on", "that", "the",
   "to", "was", "were", "will", "with", "she", "her", "his", "him",
   "they", "them", "their", "we", "us", "our", "you", "your", "i",
   "me", "my", "this", "these", "those", "there", "where", "when",
   "what", "why", "how", "can", "could", "would", "should", "may",
   "might", "must", "shall", "do", "does", "did", "have", "had"]

/-- Emotion lexicon, in the dict's insertion order. -/
def emotionWords : List (String × List String) :=
  [("joy", ["happy", "excited", "thrilled", "delighted", "cheerful", "elated", "joyful", "ecstatic"]),
   ("sadness", ["sad", "depressed", "melancholy", "gloomy", "sorrowful", "heartbroken", "dejected"]),
   ("anger", ["angry", "furious", "irritated", "annoyed", "rage", "mad", "outraged", "livid"]),
   ("fear", ["scared", "afraid", "terrified", "anxious", "worried", "nervous", "frightened"]),
   ("love", ["love", "adore", "cherish", "treasure", "devoted", "affectionate", "fond"]),
   ("surprise", ["surprised", "shocked", "amazed", "astonished", "stunned", "bewildered"])]

/-- Formal-marker word list. -/
def formalWords : List String :=
  ["therefore", "furthermore", "consequently", "moreover", "nevertheless",
   "however", "indeed", "thus", "hence", "accordingly", "subsequently"]

/-- A contraction `x ++ n't`-style word built without source-level apostrophes. -/
def withApos (a b : String) : String := a ++ ⟨[aposChar]⟩ ++ b

/-- Informal-marker word list (contractions built via `withApos`). -/
def informalWords : List String :=
  [withApos "i" "m", withApos "don" "t", withApos "can" "t", withApos "won" "t",
   withApos "isn" "t", withApos "aren" "t", withApos "wasn" "t", withApos "weren" "t",
   "gonna", "wanna", "gotta", "yeah", "ok", "okay", "totally", "really"]

/-! ## StyleAnalyzer: per-sample metric functions -/

/-- Collapse every whitespace run to a single space (`re.sub(r'\s+', ' ', s)`):
the Boolean argument records whether the previous character was whitespace
(in which case further whitespace is dropped). -/
def collapseAux : Bool → List Char → List Char
  | _, [] => []
  | prevSpace, c :: t =>
    if pyIsSpace c then
      if prevSpace then collapseAux true t
      else ' ' :: collapseAux true t
    else c :: collapseAux false t

/-- `_clean_text`: strip, then collapse internal whitespace runs to one space. -/
def cleanText (s : String) : String := ⟨collapseAux false (pyStripL s.data)⟩

/-- Is `c` one of the sentence-terminal punctuation characters `.`, `!`, `?`. -/
def isSentencePunct (c : Char) : Bool := c == '.' || c == '!' || c == '?'

/-- `_split_into_sentences`: `re.split(r'[.!?]+', text)`, strip each piece,
drop empties.  (Splitting on single punctuation characters and dropping the
empty pieces yields the same list as splitting on punctuation runs.) -/
def splitIntoSentences (s : String) : List String :=
  (((splitOnPred isSentencePunct s.data).map pyStripL).filter (· ≠ [])).map (⟨·⟩)

/-- The vowels of `_count_syllables`. -/
def vowelChars : List Char := ['a', 'e', 'i', 'o', 'u', 'y']

/-- Count vowel-group starts, threading `prev_was_vowel`. -/
def vowelGroups : Bool → List Char → Nat
  | _, [] => 0
  | prev, c :: t =>
    let v := vowelChars.contains c
    (if v && !prev then 1 else 0) + vowelGroups v t

/-- `_count_syllables`. -/
def countSyllables (word : String) : Nat :=
  let w := (pyLower word).data
  let n := vowelGroups false w
  let n := if strEndsWith w ['e'] && decide (1 < n) then n - 1 else n
  max 1 n

/-- `_calculate_flesch_score` (the `text` argument is unused in the source too). -/
def calcFleschScore (_text : String) (words sentences : List String) : ℚ :=
  if words = [] ∨ sentences = [] then 50
  else
    let totalSyllables : ℚ := ((words.map countSyllables).sum : ℕ)
    let avgSentenceLength : ℚ := (words.length : ℚ) / (sentences.length : ℚ)
    let avgSyllablesPerWord : ℚ := totalSyllables / (words.length : ℚ)
    max 0 (min 100 (206.835 - 1.015 * avgSentenceLength - 84.6 * avgSyllablesPerWord))

/-- `_calculate_grade_level`. -/
def calcGradeLevel (fleschScore : ℚ) : ℚ :=
  if 90 ≤ fleschScore then 5.0
  else if 80 ≤ fleschScore then 6.0
  else if 70 ≤ fleschScore then 7.0
  else if 60 ≤ fleschScore then 8.5
  else if 50 ≤ fleschScore then 10.0
  else if 30 ≤ fleschScore then 13.0
  else 16.0

/-- `_calculate_formality`: its argument is the already lower-cased text. -/
def calcFormality (textLower : String) : ℚ :=
  let formalCount := formalWords.countP (fun w => containsS textLower w)
  let informalCount := informalWords.countP (fun w => containsS textLower w)
  if formalCount + informalCount = 0 then 0.5
  else (formalCount : ℚ) / ((formalCount : ℚ) + (informalCount : ℚ))

/-- `sentiment` value of one sample. -/
structure Sentiment where
  polarity : ℚ
  subjectivity : ℚ
deriving Repr, DecidableEq

/-- Positive word list of `_analyze_sentiment_simple`. -/
def positiveWords : List String :=
  ["good", "great", "excellent", "amazing", "wonderful", "fantastic", "love",
   "like", "enjoy", "happy", "pleased"]

/-- Negative word list of `_analyze_sentiment_simple`. -/
def negativeWords : List String :=
  ["bad", "terrible", "awful", "horrible", "hate", "dislike", "sad", "angry",
   "disappointed", "upset"]

/-- `_analyze_sentiment_simple`: its argument is the already lower-cased text. -/
def analyzeSentimentSimple (textLower : String) : Sentiment :=
  let posCount := positiveWords.countP (fun w => containsS textLower w)
  let negCount := negativeWords.countP (fun w => containsS textLower w)
  let total := posCount + negCount
  { polarity := if total = 0 then 0 else ((posCount : ℚ) - (negCount : ℚ)) / (total : ℚ),
    subjectivity := min 1 ((total : ℚ) / 100) }

/-- Result of `_analyze_sentence_structures`. -/
structure SentenceStructures where
  simple : Nat
  compound : Nat
  complexCount : Nat
  avg_clauses_per_sentence : ℚ
deriving Repr, DecidableEq

/-- Conjunction alternation of `_analyze_sentence_structures`'s regex. -/
def structureConjunctions : List String :=
  ["and", "but", "or", "so", "yet", "for", "nor", "because", "although",
   "since", "while", "if", "unless", "when", "where", "after", "before"]

/-- Number of regex matches of `\b(and|but|...)\b` in a sentence: since every
alternative is a whole word delimited by `\b` on both sides, the matches are
exactly the maximal word runs that belong to the list. -/
def countConjunctions (sentenceLower : String) : Nat :=
  (wordRuns sentenceLower).countP (fun w => structureConjunctions.contains w)

/-- `_analyze_sentence_structures`. -/
def analyzeSentenceStructures (sentences : List String) : SentenceStructures :=
  let step := fun (acc : Nat × Nat × Nat × Nat) (sentence : String) =>
    let lower := pyLower sentence
    let conj := countConjunctions lower
    let clauses := max 1 (conj + 1)
    let (si, co, cx, tot) := acc
    if clauses = 1 then (si + 1, co, cx, tot + clauses)
    else if containsS lower "and" || containsS lower "but" || containsS lower "or" then
      (si, co + 1, cx, tot + clauses)
    else (si, co, cx + 1, tot + clauses)
  let (si, co, cx, tot) := sentences.foldl step (0, 0, 0, 0)
  { simple := si, compound := co, complexCount := cx,
    avg_clauses_per_sentence := (tot : ℚ) / (max sentences.length 1 : ℕ) }

/-- Result of `_analyze_punctuation`. -/
structure PunctuationUsage where
  exclamation_marks : Nat
  question_marks : Nat
  ellipsis : Nat
  semicolons : Nat
  colons : Nat
  dashes : Nat
  parentheses : Nat
  quotation_marks : Nat
deriving Repr, DecidableEq

/-- `_analyze_punctuation`. -/
def analyzePunctuation (text : String) : PunctuationUsage :=
  { exclamation_marks := countChar text '!',
    question_marks := countChar text '?',
    ellipsis := countOcc text.data ['.', '.', '.'],
    semicolons := countChar text ';',
    colons := countChar text ':',
    dashes := countOcc text.data ['-', '-', '-'] + countOcc text.data ['-', '-'],
    parentheses := countChar text '(',
    quotation_marks := countChar text '"' + countChar text aposChar }

/-- Is `j` the start of an occurrence of `w` in `cs` with regex word
boundaries (`\b`) on both sides? -/
def boundaryOccAt (cs w : List Char) (j : Nat) : Bool :=
  startsWithL (cs.drop j) w
  && (j == 0 || !isWordChar (cs.getD (j - 1) ' '))
  && (j + w.length == cs.length || !isWordChar (cs.getD (j + w.length) ' '))

/-- All word-boundary occurrence positions of `w` in `cs`. -/
def boundaryOccs (cs w : List Char) : List Nat :=
  (List.range cs.length).filter (boundaryOccAt cs w)

/-- One step of `re.findall(rf'.{0,20}\b w \b.{0,20}', text)`: from scan
position `p`, the leftmost match anchors on the first boundary occurrence
`j ≥ p`; the greedy left context starts at `max p (j - 20)`, the greedy match
then extends to the last occurrence within that window, and the right context
takes up to 20 further characters.  (The source pattern's `.` also excludes
newlines, which none of the analysed properties observe.) -/
def emoFindAux (cs w : List Char) : Nat → Nat → List (List Char)
  | 0, _ => []
  | fuel + 1, p =>
    match (boundaryOccs cs w).filter (p ≤ ·) with
    | [] => []
    | jmin :: _ =>
      let s := max p (jmin - 20)
      let jstar := ((boundaryOccs cs w).filter (fun j => s ≤ j ∧ j ≤ s + 20)).foldl max jmin
      let e := jstar + w.length + min 20 (cs.length - (jstar + w.length))
      ((cs.take e).drop s) :: emoFindAux cs w fuel e

/-- `re.findall` of the ±20-character context pattern around `w`. -/
def emoMatches (textLower : String) (w : String) : List String :=
  (emoFindAux textLower.data w.data (textLower.data.length + 1) 0).map (⟨·⟩)

/-- `_analyze_emotional_language`: an emotion key is created (by the
`defaultdict` access) as soon as some lexicon word is a substring of the
text; the snippets come from the word-boundary context pattern. -/
def analyzeEmotionalLanguage (textLower : String) : List (String × List String) :=
  emotionWords.filterMap (fun ew =>
    let hits := ew.2.filter (fun w => containsS textLower w)
    if hits = [] then none
    else some (ew.1, hits.flatMap (fun w => emoMatches textLower w)))

/-- Python `str.isalpha` (ASCII part). -/
def pyIsAlpha (s : String) : Bool := s.data ≠ [] && s.data.all Char.isAlpha

/-- A `collections.Counter` built by counting items in encounter order. -/
def counterAdd (c : List (String × Nat)) (k : String) (v : Nat) : List (String × Nat) :=
  if c.any (fun e => e.1 == k) then
    c.map (fun e => if e.1 == k then (e.1, e.2 + v) else e)
  else c ++ [(k, v)]

/-- `Counter(items)` for unit counts. -/
def counterOf (items : List String) : List (String × Nat) :=
  items.foldl (fun c k => counterAdd c k 1) []

/-- `Counter.most_common(n)`: stable sort by count descending, take `n`.
(CPython implements it with `sorted(..., reverse=True)`, which keeps the
encounter order among equal counts.) -/
def mostCommon (c : List (String × Nat)) (n : Nat) : List (String × Nat) :=
  (c.mergeSort (fun a b => b.2 ≤ a.2)).take n

/-- `_get_frequent_words` with its default `top_n = 20`. -/
def getFrequentWords (words : List String) : List (String × Nat) :=
  let filtered := (words.filter (fun w =>
    pyIsAlpha w && !stopWords.contains (pyLower w) && decide (2 < w.length))).map pyLower
  mostCommon (counterOf filtered) 20

/-- `_get_frequent_phrases` with its default `top_n = 10`. -/
def getFrequentPhrases (text : String) : List (String × Nat) :=
  let ws := wordRuns (pyLower text)
  let bigrams := (ws.zip ws.tail).map (fun p => p.1 ++ " " ++ p.2)
  let trigrams := ((ws.zip ws.tail).zip (ws.tail.tail)).map
    (fun p => p.1.1 ++ " " ++ p.1.2 ++ " " ++ p.2)
  mostCommon (counterOf (bigrams ++ trigrams)) 10

/-- Result of `_analyze_pos_patterns_simple` (suffix-heuristic shares; the
source dict keys are `adjective_ratio`, `adverb_ratio`,
`estimated_complexity`). -/
structure PosPatterns where
  adjectiveShare : ℚ
  adverbShare : ℚ
  estimatedComplexity : ℚ
deriving Repr, DecidableEq

/-- The adjective-suffix tuple of `_analyze_pos_patterns_simple`. -/
def adjSuffixes : List String := ["ly", "ful", "less", "able", "ible"]

/-- `_analyze_pos_patterns_simple`. -/
def analyzePosPatterns (words : List String) : PosPatterns :=
  let adjectives := words.countP (fun w =>
    adjSuffixes.any (fun suf => strEndsWith (pyLower w).data suf.data))
  { adjectiveShare := (adjectives : ℚ) / (max words.length 1 : ℕ),
    adverbShare := ((words.countP (fun w => strEndsWith (pyLower w).data ['l', 'y'])) : ℚ)
      / (max words.length 1 : ℕ),
    estimatedComplexity :=
      (((words.filter (fun w => decide (6 < w.length))).map pyLower).dedup.length : ℚ)
      / (max words.length 1 : ℕ) }

/-- The 8 hand-built style features of `_get_style_embedding_simple`. -/
def styleFeatures (text : String) (words sentences : List String) : List ℚ :=
  [(words.length : ℚ) / 1000,
   (sentences.length : ℚ) / 100,
   (words.length : ℚ) / (max sentences.length 1 : ℕ) / 20,
   ((words.map (fun w => w.length)).sum : ℚ) / (max words.length 1 : ℕ) / 10,
   (countChar text '!' : ℚ) / 10,
   (countChar text '?' : ℚ) / 10,
   calcFormality (pyLower text),
   ((words.map pyLower).dedup.length : ℚ) / (max words.length 1 : ℕ)]

/-- `_get_style_embedding_simple`: the feature vector zero-padded (`while`
loop) and truncated (`[:32]`) to exactly 32 entries. -/
def getStyleEmbeddingSimple (text : String) (words sentences : List String) : List ℚ :=
  let features := styleFeatures text words sentences
  (features ++ List.replicate (32 - features.length) 0).take 32

/-- The per-sample metrics dict returned by `analyze_writing_sample`. -/
structure SampleMetrics where
  word_count : Nat
  sentence_count : Nat
  avg_sentence_length : ℚ
  avg_word_length : ℚ
  flesch_reading_ease : ℚ
  flesch_kincaid_grade : ℚ
  unique_words : Nat
  vocabulary_richness : ℚ
  sentence_structures : SentenceStructures
  punctuation_usage : PunctuationUsage
  emotional_language : List (String × List String)
  formality_score : ℚ
  frequent_words : List (String × Nat)
  frequent_phrases : List (String × Nat)
  pos_patterns : PosPatterns
  sentiment : Sentiment
  style_embedding : List ℚ
deriving Repr, DecidableEq

/-- `analyze_writing_sample`. -/
def analyzeWritingSample (text : String) : SampleMetrics :=
  let cleanedText := cleanText text
  let words := pySplitWhite cleanedText
  let sentences := splitIntoSentences text
  let wordCount := words.length
  let sentenceCount := sentences.length
  let uniqueWords := ((words.filter pyIsAlpha).map pyLower).dedup
  let fleschScore := calcFleschScore text words sentences
  { word_count := wordCount,
    sentence_count := sentenceCount,
    avg_sentence_length := (wordCount : ℚ) / (max sentenceCount 1 : ℕ),
    avg_word_length := ((words.map (fun w => w.length)).sum : ℚ) / (max wordCount 1 : ℕ),
    flesch_reading_ease := fleschScore,
    flesch_kincaid_grade := calcGradeLevel fleschScore,
    unique_words := uniqueWords.length,
    vocabulary_richness := (uniqueWords.length : ℚ) / (max wordCount 1 : ℕ),
    sentence_structures := analyzeSentenceStructures sentences,
    punctuation_usage := analyzePunctuation text,
    emotional_language := analyzeEmotionalLanguage (pyLower text),
    formality_score := calcFormality (pyLower text),
    frequent_words := getFrequentWords words,
    frequent_phrases := getFrequentPhrases text,
    pos_patterns := analyzePosPatterns words,
    sentiment := analyzeSentimentSimple (pyLower text),
    style_embedding := getStyleEmbeddingSimple text words sentences }

/-! ## ProfileAggregator: `build_user_style_profile` and helpers -/

/-- `np.mean` of a rational list (only applied to non-empty lists by the
source). -/
def listMean (l : List ℚ) : ℚ := l.sum / (l.length : ℚ)

/-- Population variance, the square of `np.std` (`ddof = 0`). -/
def popVariance (l : List ℚ) : ℚ :=
  listMean (l.map (fun x => (x - listMean l) ^ 2))

/-- `np.std`: population standard deviation. -/
noncomputable def npStd (l : List ℚ) : ℝ := Real.sqrt (popVariance l)

/-- `_determine_formality_preference`. -/
def determineFormalityPreference (analyses : List SampleMetrics) : String :=
  let avgFormality := listMean (analyses.map (·.formality_score))
  if 0.7 < avgFormality then "formal"
  else if avgFormality < 0.4 then "casual"
  else "neutral"

/-- `_determine_vocabulary_level`. -/
def determineVocabularyLevel (analyses : List SampleMetrics) : String :=
  let avgGrade := listMean (analyses.map (·.flesch_kincaid_grade))
  if 12 < avgGrade then "advanced"
  else if 8 < avgGrade then "intermediate"
  else "simple"

/-- Extend the snippet list of key `k` in an insertion-ordered map
(`defaultdict(list)` access followed by `extend`). -/
def extendAssoc (m : List (String × List String)) (k : String) (v : List String) :
    List (String × List String) :=
  if m.any (fun e => e.1 == k) then
    m.map (fun e => if e.1 == k then (e.1, e.2 ++ v) else e)
  else m ++ [(k, v)]

/-- `_build_emotional_patterns`. -/
def buildEmotionalPatterns (analyses : List SampleMetrics) : List (String × List String) :=
  analyses.foldl (fun m a =>
    a.emotional_language.foldl (fun m e => extendAssoc m e.1 e.2) m) []

/-- `_determine_structure_preference`: totals over the three structure keys,
each divided by the combined total (the `avg_clauses_per_sentence` key is
skipped by the source loop). -/
def determineStructurePreference (analyses : List SampleMetrics) : List (String × ℚ) :=
  let si := (analyses.map (·.sentence_structures.simple)).sum
  let co := (analyses.map (·.sentence_structures.compound)).sum
  let cx := (analyses.map (·.sentence_structures.complexCount)).sum
  let total := si + co + cx
  [("simple", (si : ℚ) / (max total 1 : ℕ)),
   ("compound", (co : ℚ) / (max total 1 : ℕ)),
   ("complex", (cx : ℚ) / (max total 1 : ℕ))]

/-- `_get_overall_word_preferences`. -/
def getOverallWordPreferences (analyses : List SampleMetrics) : List (String × Nat) :=
  let allWords := analyses.foldl (fun c a =>
    a.frequent_words.foldl (fun c e => counterAdd c e.1 e.2) c) []
  mostCommon allWords 30

/-- `_get_overall_phrase_preferences`. -/
def getOverallPhrasePreferences (analyses : List SampleMetrics) : List (String × Nat) :=
  let allPhrases := analyses.foldl (fun c a =>
    a.frequent_phrases.foldl (fun c e => counterAdd c e.1 e.2) c) []
  mostCommon allPhrases 20

/-- `_determine_punctuation_style`: totals per punctuation key, normalized to
occurrences per 1000 words over the total word count of all samples. -/
def determinePunctuationStyle (analyses : List SampleMetrics) : List (String × ℚ) :=
  let wordTotal := (analyses.map (·.word_count)).sum
  let norm := fun (n : Nat) => (n : ℚ) / (max wordTotal 1 : ℕ) * 1000
  [("exclamation_marks", norm (analyses.map (·.punctuation_usage.exclamation_marks)).sum),
   ("question_marks", norm (analyses.map (·.punctuation_usage.question_marks)).sum),
   ("ellipsis", norm (analyses.map (·.punctuation_usage.ellipsis)).sum),
   ("semicolons", norm (analyses.map (·.punctuation_usage.semicolons)).sum),
   ("colons", norm (analyses.map (·.punctuation_usage.colons)).sum),
   ("dashes", norm (analyses.map (·.punctuation_usage.dashes)).sum),
   ("parentheses", norm (analyses.map (·.punctuation_usage.parentheses)).sum),
   ("quotation_marks", norm (analyses.map (·.punctuation_usage.quotation_marks)).sum)]

/-- The `sentiment_tendencies` dict of the profile. -/
structure SentimentTendencies where
  avg_polarity : ℚ
  avg_subjectivity : ℚ
  sentiment_consistency : ℝ

/-- `_determine_sentiment_tendencies`. -/
noncomputable def determineSentimentTendencies (analyses : List SampleMetrics) :
    SentimentTendencies :=
  let polarities := analyses.map (·.sentiment.polarity)
  { avg_polarity := listMean polarities,
    avg_subjectivity := listMean (analyses.map (·.sentiment.subjectivity)),
    sentiment_consistency := 1 - npStd polarities }

/-- `_create_average_embedding`: `np.mean(embeddings, axis=0)` over the
fixed-length-32 per-sample vectors. -/
def createAverageEmbedding (analyses : List SampleMetrics) : List ℚ :=
  (List.range 32).map (fun i => listMean (analyses.map (fun a => a.style_embedding.getD i 0)))

/-- The persistent style profile dict built by `build_user_style_profile`. -/
structure StyleProfile where
  sample_count : Nat
  avg_sentence_length : ℚ
  avg_word_length : ℚ
  vocabulary_richness : ℚ
  avg_readability : ℚ
  grade_level : ℚ
  formality_preference : String
  vocabulary_level : String
  emotional_expression_patterns : List (String × List String)
  sentence_structure_preference : List (String × ℚ)
  preferred_words : List (String × Nat)
  preferred_phrases : List (String × Nat)
  punctuation_style : List (String × ℚ)
  sentiment_tendencies : SentimentTendencies
  style_embedding : List ℚ

/-- `build_user_style_profile`: `none` models the empty dict `{}` returned
for an empty sample list (an empty dict is not a profile). -/
noncomputable def buildUserStyleProfile (sampleAnalyses : List SampleMetrics) :
    Option StyleProfile :=
  if sampleAnalyses.isEmpty then none
  else some
    { sample_count := sampleAnalyses.length,
      avg_sentence_length := listMean (sampleAnalyses.map (·.avg_sentence_length)),
      avg_word_length := listMean (sampleAnalyses.map (·.avg_word_length)),
      vocabulary_richness := listMean (sampleAnalyses.map (·.vocabulary_richness)),
      avg_readability := listMean (sampleAnalyses.map (·.flesch_reading_ease)),
      grade_level := listMean (sampleAnalyses.map (·.flesch_kincaid_grade)),
      formality_preference := determineFormalityPreference sampleAnalyses,
      vocabulary_level := determineVocabularyLevel sampleAnalyses,
      emotional_expression_patterns := buildEmotionalPatterns sampleAnalyses,
      sentence_structure_preference := determineStructurePreference sampleAnalyses,
      preferred_words := getOverallWordPreferences sampleAnalyses,
      preferred_phrases := getOverallPhrasePreferences sampleAnalyses,
      punctuation_style := determinePunctuationStyle sampleAnalyses,
      sentiment_tendencies := determineSentimentTendencies sampleAnalyses,
      style_embedding := createAverageEmbedding sampleAnalyses }

/-- The computational core of the `/api/samples/analyze` controller
(`analyze_user_samples`): fewer than one stored sample is rejected with a
400 validation error before any analysis runs; otherwise every sample is
analysed and the profile is built.  Persistence side effects are outside the
model; the `none` branch corresponds to the `KeyError` the controller's
`except` clause would convert to a 500 response (it is unreachable for a
non-empty sample list). -/
noncomputable def analyzeUserSamples (samples : List String) :
    Except String StyleProfile :=
  if samples.length < 1 then
    Except.error "Need at least 1 writing sample to build style profile"
  else
    match buildUserStyleProfile (samples.map analyzeWritingSample) with
    | some p => Except.ok p
    | none => Except.error "Analysis failed"

/-! ## ContentGenerator -/

/-- Case-insensitive match of the lower-case pattern `pat` at the head of
`cs` (regex `IGNORECASE` on an ASCII pattern). -/
def matchesCI : List Char → List Char → Bool
  | _, [] => true
  | [], _ :: _ => false
  | c :: cs, p :: ps => (pyLowerChar c == p) && matchesCI cs ps

/-- Word-boundary check to the right of a match: end of string or a
non-word character. -/
def boundaryR (rest : List Char) : Bool :=
  match rest with
  | [] => true
  | c :: _ => !isWordChar c

/-- One `re.sub(rf'\b pat \b', rep, text, flags=IGNORECASE)` scan with fuel.
`atB` records whether the current position follows the start of the string
or a non-word character (the left `\b` for a pattern starting with a word
character).  After a replacement the scan resumes past the matched region,
with `atB` computed from the last consumed character of the original text. -/
def subWordAux (pat rep : List Char) : Nat → Bool → List Char → List Char
  | 0, _, cs => cs
  | _ + 1, _, [] => []
  | n + 1, atB, c :: rest =>
    if atB && matchesCI (c :: rest) pat && boundaryR ((c :: rest).drop pat.length) then
      let consumed := (c :: rest).take pat.length
      let atB2 := !isWordChar (consumed.getLast?.getD c)
      rep ++ subWordAux pat rep n atB2 ((c :: rest).drop pat.length)
    else c :: subWordAux pat rep n (!isWordChar c) rest

/-- `re.sub(rf'\b pat \b', rep, text, flags=re.IGNORECASE)` for a lower-case
alphabetic pattern word. -/
def subWord (pat rep text : String) : String :=
  ⟨subWordAux pat.data rep.data (text.data.length + 1) true text.data⟩

/-- Substitution map of `_make_more_casual`, in dict order. -/
def casualMap : List (String × String) :=
  [("therefore", "so"), ("however", "but"), ("furthermore", "also"),
   ("consequently", "so"), ("nevertheless", "but still")]

/-- `_make_more_casual`: the substitutions are applied sequentially. -/
def makeMoreCasual (text : String) : String :=
  casualMap.foldl (fun t pr => subWord pr.1 pr.2 t) text

/-- Substitution map of `_make_more_formal`, in dict order (the source keys
are the regexes `\bso\b`, `\bbut\b`, `\balso\b`, `\banyway\b`). -/
def formalMap : List (String × String) :=
  [("so", "therefore"), ("but", "however"), ("also", "furthermore"),
   ("anyway", "nonetheless")]

/-- `_make_more_formal`. -/
def makeMoreFormal (text : String) : String :=
  formalMap.foldl (fun t pr => subWord pr.1 pr.2 t) text

/-- The 5-conjunction list of `_break_long_sentences`. -/
def breakConjunctions : List String := ["and", "but", "so", "because", "while"]

/-- Is a token a break conjunction (`word.lower() in [...]`)? -/
def isConjWord (w : String) : Bool := breakConjunctions.contains (pyLower w)

/-- The `for i, word in enumerate(words)` loop of `_break_long_sentences`:
first index `i` (starting from `k`) with a conjunction token and `i > 8`. -/
def findBreakIdx : Nat → List String → Option Nat
  | _, [] => none
  | i, w :: ws =>
    if isConjWord w && decide (8 < i) then some i else findBreakIdx (i + 1) ws

/-- Per-sentence processing of `_break_long_sentences`: sentences of more
than 25 words are split in two at the first late conjunction, which is
dropped; otherwise the sentence passes through as a single piece. -/
def breakOneSentence (sentence : String) : List String :=
  let words := pySplitWhite sentence
  if 25 < words.length then
    match findBreakIdx 0 words with
    | some i => [joinStr " " (words.take i), joinStr " " (words.drop (i + 1))]
    | none => [sentence]
  else [sentence]

/-- `_break_long_sentences`. -/
def breakLongSentences (text : String) : String :=
  let sentences :=
    ((((splitOnPred isSentencePunct text.data).map pyStripL).filter (· ≠ [])).map
      (⟨·⟩ : List Char → String))
  joinStr ". " (sentences.flatMap breakOneSentence) ++ "."

/-- The `while` loop of `_combine_short_sentences`: a sentence of fewer than
8 words is merged with its successor (lower-cased) via `, and `, consuming
both. -/
def combineLoop : List String → List String
  | [] => []
  | [s] => [s]
  | s1 :: s2 :: rest =>
    if (pySplitWhite s1).length < 8 then
      (s1 ++ ", and " ++ pyLower s2) :: combineLoop rest
    else s1 :: combineLoop (s2 :: rest)

/-- `_combine_short_sentences`. -/
def combineShortSentences (text : String) : String :=
  let sentences :=
    ((((splitOnPred isSentencePunct text.data).map pyStripL).filter (· ≠ [])).map
      (⟨·⟩ : List Char → String))
  joinStr ". " (combineLoop sentences) ++ "."

/-- `_refine_with_style`: length adjustment first (only one of the two
passes, by the `if`/`elif`), then the formality substitution pass, then a
final `strip`. -/
def refineWithStyle (generatedText : String) (p : StyleProfile) : String :=
  let t1 :=
    if p.avg_sentence_length < 12 then breakLongSentences generatedText
    else if 20 < p.avg_sentence_length then combineShortSentences generatedText
    else generatedText
  let t2 :=
    if p.formality_preference = "casual" then makeMoreCasual t1
    else if p.formality_preference = "formal" then makeMoreFormal t1
    else t1
  pyStrip t2

/-- Format a rational as `f'{q:.0f}'` does, up to the tie-breaking of
half-integers (unobserved here): round to the nearest integer. -/
def formatRound0 (q : ℚ) : String := toString (round q)

/-- `_build_style_prompt`: the conditioning block concatenated around the
user prompt.  The literal text fragments follow the source f-strings with
their indentation whitespace elided; snippet quotes are the apostrophe
character. -/
def buildStylePrompt (userPrompt : String) (p : StyleProfile) (context : String) : String :=
  let styleDesc :=
    "Write in a " ++ p.formality_preference ++ " style with " ++ p.vocabulary_level ++
    " vocabulary. Average sentence length should be around " ++
    formatRound0 p.avg_sentence_length ++ " words. "
  let prefWords := (p.preferred_words.take 10).map (·.1)
  let styleDesc :=
    if prefWords ≠ [] then
      styleDesc ++ "Try to naturally incorporate words like: " ++
        joinStr ", " (prefWords.take 5) ++ ". "
    else styleDesc
  let styleDesc :=
    if ["personal", "emotional", "creative"].contains context then
      if p.emotional_expression_patterns ≠ [] then
        (p.emotional_expression_patterns.take 2).foldl
          (fun d e =>
            match e.2 with
            | [] => d
            | ex :: _ =>
              d ++ e.1 ++ ": " ++ ⟨[aposChar]⟩ ++ ⟨ex.data.take 50⟩ ++ "..." ++
                ⟨[aposChar]⟩ ++ " ")
          (styleDesc ++ "When expressing emotions, use patterns similar to these examples: ")
      else styleDesc
    else styleDesc
  let exclamationRate :=
    ((p.punctuation_style.find? (fun e => e.1 == "exclamation_marks")).map (·.2)).getD 0
  let styleDesc :=
    if 5 < exclamationRate then styleDesc ++ "Use exclamation marks to show enthusiasm. "
    else if exclamationRate < 1 then
      styleDesc ++ "Avoid excessive exclamation marks, keep tone measured. "
    else styleDesc
  styleDesc ++ "\n\nUser request: " ++ userPrompt ++
    "\n\nPlease respond in the writing style described above, making it sound natural and authentic:"

/-- `_generate_generic_content`: the prompt actually sent to the external
completion capability when no style profile is available. -/
def genericRequest (prompt : String) : String :=
  "Please help with this request: " ++ prompt

/-- `generate_personalized_content`.  The external completion capability
(`ollama_client`) is passed in as the function `complete`; `none` models a
falsy (absent or empty) style profile. -/
def generatePersonalizedContent (complete : String → String)
    (prompt : String) (userStyleProfile : Option StyleProfile)
    (context : String) : String :=
  match userStyleProfile with
  | none => complete (genericRequest prompt)
  | some p => refineWithStyle (complete (buildStylePrompt prompt p context)) p

/-! ## Auxiliary definitions for the verification statements -/

/-- The seven grade levels the step function `_calculate_grade_level` can
return. -/
def gradeLevels : List ℚ := [5.0, 6.0, 7.0, 8.5, 10.0, 13.0, 16.0]

/-- A sample-metrics record with a prescribed formality score and neutral
values elsewhere, used to instantiate aggregation statements. -/
def mkSampleWithFormality (q : ℚ) : SampleMetrics :=
  { word_count := 0, sentence_count := 0, avg_sentence_length := 0,
    avg_word_length := 0, flesch_reading_ease := 50, flesch_kincaid_grade := 10,
    unique_words := 0, vocabulary_richness := 0,
    sentence_structures := ⟨0, 0, 0, 0⟩,
    punctuation_usage := ⟨0, 0, 0, 0, 0, 0, 0, 0⟩,
    emotional_language := [], formality_score := q,
    frequent_words := [], frequent_phrases := [],
    pos_patterns := ⟨0, 0, 0⟩, sentiment := ⟨0, 0⟩, style_embedding := [] }

/-- A style profile with a short target sentence length and casual
formality, used to instantiate refinement statements. -/
noncomputable def shortCasualProfile : StyleProfile :=
  { sample_count := 1, avg_sentence_length := 8, avg_word_length := 4,
    vocabulary_richness := 1 / 2, avg_readability := 50, grade_level := 10,
    formality_preference := "casual", vocabulary_level := "intermediate",
    emotional_expression_patterns := [], sentence_structure_preference := [],
    preferred_words := [], preferred_phrases := [], punctuation_style := [],
    sentiment_tendencies := ⟨0, 0, 0⟩, style_embedding := [] }

/-- A 27-word sentence whose first late conjunction sits at word index 9. -/
def longSentence : String :=
  "a a a a a a a a a and b b b b b b b b b b b b b b b b b"

/-- No exclamation or question mark occurs among these characters. -/
def noBQ (cs : List Char) : Prop := ∀ c ∈ cs, c ≠ '!' ∧ c ≠ '?'

instance (cs : List Char) : Decidable (noBQ cs) :=
  inferInstanceAs (Decidable (∀ c ∈ cs, c ≠ '!' ∧ c ≠ '?'))

/-- The character list ends with a period. -/
def endsDot (cs : List Char) : Prop := ∃ u, cs = u ++ ['.']

/-! ## General lemmas about the analyzer -/

/-- The clamp in `_calculate_flesch_score` keeps every score within `[0, 100]`,
and the empty-input default 50 also lies there. -/
theorem calcFleschScore_range (t : String) (w s : List String) :
    0 ≤ calcFleschScore t w s ∧ calcFleschScore t w s ≤ 100 := by
  unfold calcFleschScore
  split
  · norm_num
  · exact ⟨le_max_left 0 _, max_le (by norm_num) (min_le_left _ _)⟩

/-- The grade-level step function only ever returns one of its seven levels. -/
theorem calcGradeLevel_mem (q : ℚ) : calcGradeLevel q ∈ gradeLevels := by
  unfold calcGradeLevel gradeLevels
  split_ifs <;> simp

/-- C2: for every input text the extracted Flesch reading-ease score lies in
[0, 100] (equal to the neutral default 50 whenever the word or sentence list
is empty), and the derived grade level is one of
{5.0, 6.0, 7.0, 8.5, 10.0, 13.0, 16.0}, obtained by the step function
`calcGradeLevel` from the Flesch score. -/
theorem C2_flesch_range_grade_levels (text : String) :
    0 ≤ (analyzeWritingSample text).flesch_reading_ease ∧
    (analyzeWritingSample text).flesch_reading_ease ≤ 100 ∧
    (analyzeWritingSample text).flesch_kincaid_grade
      = calcGradeLevel (analyzeWritingSample text).flesch_reading_ease ∧
    (analyzeWritingSample text).flesch_kincaid_grade ∈ gradeLevels ∧
    (pySplitWhite (cleanText text) = [] ∨ splitIntoSentences text = [] →
      (analyzeWritingSample text).flesch_reading_ease = 50) := by
  have hf : (analyzeWritingSample text).flesch_reading_ease
      = calcFleschScore text (pySplitWhite (cleanText text)) (splitIntoSentences text) := rfl
  refine ⟨?_, ?_, rfl, ?_, ?_⟩
  · rw [hf]; exact (calcFleschScore_range _ _ _).1
  · rw [hf]; exact (calcFleschScore_range _ _ _).2
  · exact calcGradeLevel_mem _
  · intro h
    rw [hf]
    unfold calcFleschScore
    rw [if_pos h]

/-- Witness for C2 at the empty text: its word list is empty, so the score
is the neutral default 50. -/
theorem C2_flesch_range_grade_levels_witness :
    (analyzeWritingSample "").flesch_reading_ease = 50 :=
  (C2_flesch_range_grade_levels "").2.2.2.2 (Or.inl (by decide))

/-- C3: the per-sample style embedding is the 8 hand-built features
zero-padded to exactly 32 numbers, for every text. -/
theorem C3_style_embedding_is_padded_features (text : String) :
    (analyzeWritingSample text).style_embedding
      = styleFeatures text (pySplitWhite (cleanText text)) (splitIntoSentences text)
          ++ List.replicate 24 0 ∧
    (analyzeWritingSample text).style_embedding.length = 32 := by
  set w := pySplitWhite (cleanText text)
  set s := splitIntoSentences text
  have hlen : (styleFeatures text w s).length = 8 := rfl
  have he : (analyzeWritingSample text).style_embedding
      = (styleFeatures text w s
          ++ List.replicate (32 - (styleFeatures text w s).length) 0).take 32 := rfl
  have h1 : (analyzeWritingSample text).style_embedding
      = styleFeatures text w s ++ List.replicate 24 0 := by
    rw [he, hlen]
    norm_num
    simp [hlen]
  refine ⟨h1, ?_⟩
  rw [h1]
  simp [hlen]

/-- C6: the formality score is formal-marker hits over total marker hits with
neutral default 1/2, and the formal sample text scores strictly above the
informal sample text. -/
theorem C6_formality_ratio_and_comparison :
    (∀ textLower : String,
      (formalWords.countP (fun w => containsS textLower w)
          + informalWords.countP (fun w => containsS textLower w) = 0 →
        calcFormality textLower = 1 / 2) ∧
      (formalWords.countP (fun w => containsS textLower w)
          + informalWords.countP (fun w => containsS textLower w) ≠ 0 →
        calcFormality textLower
          = (formalWords.countP (fun w => containsS textLower w) : ℚ)
            / ((formalWords.countP (fun w => containsS textLower w) : ℚ)
              + (informalWords.countP (fun w => containsS textLower w) : ℚ)))) ∧
    calcFormality (pyLower "However, therefore, thus indeed.")
      > calcFormality (pyLower "yeah gonna wanna totally") := by
  constructor
  · intro t
    have e : calcFormality t
        = if formalWords.countP (fun w => containsS t w)
              + informalWords.countP (fun w => containsS t w) = 0 then (0.5 : ℚ)
          else (formalWords.countP (fun w => containsS t w) : ℚ)
            / ((formalWords.countP (fun w => containsS t w) : ℚ)
              + (informalWords.countP (fun w => containsS t w) : ℚ)) := rfl
    constructor
    · intro h
      rw [e, if_pos h]
      norm_num
    · intro h
      rw [e, if_neg h]
  · have h1 : formalWords.countP
        (fun w => containsS (pyLower "However, therefore, thus indeed.") w) = 4 := by decide
    have h2 : informalWords.countP
        (fun w => containsS (pyLower "However, therefore, thus indeed.") w) = 0 := by decide
    have h3 : formalWords.countP
        (fun w => containsS (pyLower "yeah gonna wanna totally") w) = 0 := by decide
    have h4 : informalWords.countP
        (fun w => containsS (pyLower "yeah gonna wanna totally") w) = 4 := by decide
    have e : ∀ t : String, calcFormality t
        = if formalWords.countP (fun w => containsS t w)
              + informalWords.countP (fun w => containsS t w) = 0 then (0.5 : ℚ)
          else (formalWords.countP (fun w => containsS t w) : ℚ)
            / ((formalWords.countP (fun w => containsS t w) : ℚ)
              + (informalWords.countP (fun w => containsS t w) : ℚ)) := fun _ => rfl
    rw [e (pyLower "However, therefore, thus indeed."),
      e (pyLower "yeah gonna wanna totally"), h1, h2, h3, h4]
    norm_num

/-- Witness for C6's conditional parts at a text with no markers at all. -/
theorem C6_formality_ratio_and_comparison_witness :
    calcFormality "xyz" = 1 / 2 :=
  (C6_formality_ratio_and_comparison.1 "xyz").1 (by decide)

/-- C9: for the input text `nomad` the extractor creates the `anger` key
(because `mad` is a substring) with an empty snippet list (because `mad`
never occurs with word boundaries). -/
theorem C9_emotion_key_with_empty_snippets :
    (analyzeWritingSample "nomad").emotional_language = [("anger", [])] := by
  decide

/-- C1: aggregation of an empty metrics list yields no profile (the empty
dict); aggregation of any non-empty list of `N` metrics yields a profile
with `sample_count = N`; and the analyze endpoint rejects an empty sample
list with its validation error. -/
theorem C1_sample_count_and_empty_rejection :
    buildUserStyleProfile [] = none ∧
    (∀ ms : List SampleMetrics, ms ≠ [] →
      ∃ p, buildUserStyleProfile ms = some p ∧ p.sample_count = ms.length) ∧
    analyzeUserSamples []
      = Except.error "Need at least 1 writing sample to build style profile" := by
  refine ⟨rfl, ?_, rfl⟩
  intro ms hne
  cases ms with
  | nil => exact absurd rfl hne
  | cons a t => exact ⟨_, rfl, rfl⟩

/-- Witness for C1 at a concrete one-element metrics list. -/
theorem C1_sample_count_and_empty_rejection_witness :
    ∃ p, buildUserStyleProfile [mkSampleWithFormality (1 / 2)] = some p
      ∧ p.sample_count = 1 :=
  C1_sample_count_and_empty_rejection.2.1 [mkSampleWithFormality (1 / 2)]
    (List.cons_ne_nil _ _)

/-- The three-way threshold case split of `_determine_formality_preference`. -/
theorem formalityPref_cases (as : List SampleMetrics) :
    (0.7 < listMean (as.map (·.formality_score)) →
      determineFormalityPreference as = "formal") ∧
    (listMean (as.map (·.formality_score)) < 0.4 →
      determineFormalityPreference as = "casual") ∧
    (0.4 ≤ listMean (as.map (·.formality_score)) →
      listMean (as.map (·.formality_score)) ≤ 0.7 →
      determineFormalityPreference as = "neutral") := by
  have e : determineFormalityPreference as
      = if 0.7 < listMean (as.map (·.formality_score)) then "formal"
        else if listMean (as.map (·.formality_score)) < 0.4 then "casual"
        else "neutral" := rfl
  refine ⟨fun h => ?_, fun h => ?_, fun h1 h2 => ?_⟩
  · rw [e, if_pos h]
  · rw [e, if_neg (by linarith), if_pos h]
  · rw [e, if_neg (by linarith), if_neg (by linarith)]

/-- C8: formality preference is `formal` above mean 0.7, `casual` below 0.4,
`neutral` in between; two samples at 0.9 give `formal` and two at 0.1 give
`casual`. -/
theorem C8_formality_preference_thresholds :
    (∀ as : List SampleMetrics,
      0.7 < listMean (as.map (·.formality_score)) →
      determineFormalityPreference as = "formal") ∧
    (∀ as : List SampleMetrics,
      listMean (as.map (·.formality_score)) < 0.4 →
      determineFormalityPreference as = "casual") ∧
    (∀ as : List SampleMetrics,
      0.4 ≤ listMean (as.map (·.formality_score)) →
      listMean (as.map (·.formality_score)) ≤ 0.7 →
      determineFormalityPreference as = "neutral") ∧
    (∀ m1 m2 : SampleMetrics,
      m1.formality_score = 0.9 → m2.formality_score = 0.9 →
      determineFormalityPreference [m1, m2] = "formal") ∧
    (∀ m1 m2 : SampleMetrics,
      m1.formality_score = 0.1 → m2.formality_score = 0.1 →
      determineFormalityPreference [m1, m2] = "casual") := by
  refine ⟨fun as => (formalityPref_cases as).1,
    fun as => (formalityPref_cases as).2.1,
    fun as => (formalityPref_cases as).2.2, ?_, ?_⟩
  · intro m1 m2 h1 h2
    have hm : listMean ([m1, m2].map (·.formality_score)) = 0.9 := by
      simp [listMean, h1, h2]
    exact (formalityPref_cases [m1, m2]).1 (by rw [hm]; norm_num)
  · intro m1 m2 h1 h2
    have hm : listMean ([m1, m2].map (·.formality_score)) = 0.1 := by
      simp [listMean, h1, h2]
    exact (formalityPref_cases [m1, m2]).2.1 (by rw [hm]; norm_num)

/-- Witness for C8 at two concrete metric records scoring 0.9 and two
scoring 0.1. -/
theorem C8_formality_preference_thresholds_witness :
    determineFormalityPreference
        [mkSampleWithFormality 0.9, mkSampleWithFormality 0.9] = "formal" ∧
    determineFormalityPreference
        [mkSampleWithFormality 0.1, mkSampleWithFormality 0.1] = "casual" :=
  ⟨C8_formality_preference_thresholds.2.2.2.1 _ _ rfl rfl,
   C8_formality_preference_thresholds.2.2.2.2 _ _ rfl rfl⟩

/-- C5 counterexample: with the identity completion capability, profile-less
generation does not forward the bare prompt unchanged — a fixed template is
wrapped around it. -/
theorem C5_counterexample_template_wrapping :
    generatePersonalizedContent id "x" none "general" ≠ "x" := by decide

/-- C5 amended: with no style profile, generation skips all conditioning and
refinement and sends exactly the generic template around the prompt to the
completion capability, returning its raw result. -/
theorem C5_amended_generic_path (complete : String → String) (prompt context : String) :
    generatePersonalizedContent complete prompt none context
      = complete (genericRequest prompt) ∧
    genericRequest prompt = "Please help with this request: " ++ prompt :=
  ⟨rfl, rfl⟩

/-! ## Sentiment-consistency bounds (C4) -/

/-- Expanding a sum of squared deviations from a fixed value `m`. -/
theorem sum_map_sub_sq (m : ℚ) (l : List ℚ) :
    (l.map (fun x => (x - m) ^ 2)).sum
      = (l.map (fun x => x ^ 2)).sum - 2 * m * l.sum + l.length * m ^ 2 := by
  induction l with
  | nil => simp
  | cons a t ih =>
    simp only [List.map_cons, List.sum_cons, List.length_cons, ih, Nat.cast_succ]
    ring

/-- A list of squares bounded by 1 sums to at most the list length. -/
theorem sum_sq_le_length (l : List ℚ) (h : ∀ x ∈ l, x ^ 2 ≤ 1) :
    (l.map (fun x => x ^ 2)).sum ≤ (l.length : ℚ) := by
  induction l with
  | nil => simp
  | cons a t ih =>
    simp only [List.map_cons, List.sum_cons, List.length_cons, Nat.cast_succ]
    have ha := h a (List.mem_cons_self a t)
    have ht := ih (fun x hx => h x (List.mem_cons_of_mem a hx))
    linarith

/-- If every entry has square at most 1, the population variance is at most 1. -/
theorem popVariance_le_one (l : List ℚ) (hne : l ≠ []) (h : ∀ x ∈ l, x ^ 2 ≤ 1) :
    popVariance l ≤ 1 := by
  have hn : (0 : ℚ) < (l.length : ℚ) := by
    exact_mod_cast List.length_pos.mpr hne
  have hn0 : (l.length : ℚ) ≠ 0 := ne_of_gt hn
  have hS2 := sum_sq_le_length l h
  have hsq : 0 ≤ l.sum ^ 2 / (l.length : ℚ) := div_nonneg (sq_nonneg _) (le_of_lt hn)
  unfold popVariance listMean
  rw [sum_map_sub_sq, List.length_map]
  rw [div_le_one hn]
  have hE : (l.map (fun x => x ^ 2)).sum - 2 * (l.sum / (l.length : ℚ)) * l.sum
      + (l.length : ℚ) * (l.sum / (l.length : ℚ)) ^ 2
      = (l.map (fun x => x ^ 2)).sum - l.sum ^ 2 / (l.length : ℚ) := by
    field_simp
    ring
  rw [hE]
  linarith

/-- If every entry has square at most 1, the consistency value
`1 - np.std` is non-negative. -/
theorem consistency_nonneg (l : List ℚ) (hne : l ≠ []) (h : ∀ x ∈ l, x ^ 2 ≤ 1) :
    0 ≤ 1 - npStd l := by
  unfold npStd
  have h1 : Real.sqrt (popVariance l) ≤ 1 := by
    apply Real.sqrt_le_one.mpr
    exact_mod_cast popVariance_le_one l hne h
  linarith

/-- The polarity ratio `(p - n) / (p + n)` has square at most 1. -/
theorem ratio_sq_le_one (p n : ℕ) (h : p + n ≠ 0) :
    (((p : ℚ) - (n : ℚ)) / (((p + n : ℕ) : ℚ))) ^ 2 ≤ 1 := by
  have hpos : (0 : ℚ) < ((p + n : ℕ) : ℚ) := by
    exact_mod_cast Nat.pos_of_ne_zero h
  rw [div_pow, div_le_one (by positivity)]
  push_cast
  nlinarith [(Nat.cast_nonneg p : (0 : ℚ) ≤ (p : ℚ)),
    (Nat.cast_nonneg n : (0 : ℚ) ≤ (n : ℚ))]

/-- Every polarity the extractor produces has square at most 1 (it is a
signed ratio of word counts, or the 0 default). -/
theorem polarity_sq_le_one (t : String) : (analyzeSentimentSimple t).polarity ^ 2 ≤ 1 := by
  have e : (analyzeSentimentSimple t).polarity
      = if positiveWords.countP (fun w => containsS t w)
            + negativeWords.countP (fun w => containsS t w) = 0 then (0 : ℚ)
        else ((positiveWords.countP (fun w => containsS t w) : ℚ)
            - (negativeWords.countP (fun w => containsS t w) : ℚ))
          / ((positiveWords.countP (fun w => containsS t w)
              + negativeWords.countP (fun w => containsS t w) : ℕ) : ℚ) := rfl
  rw [e]
  split
  · norm_num
  · rename_i h
    exact ratio_sq_le_one _ _ h

/-- C4 counterexample: no list of extractor-produced sample metrics — however
bimodal — gives a negative sentiment consistency, because every polarity lies
in [−1, 1] and so the population standard deviation is at most 1. -/
theorem C4_counterexample_never_negative :
    ¬ ∃ texts : List String, texts ≠ [] ∧
      (determineSentimentTendencies (texts.map analyzeWritingSample)).sentiment_consistency
        < 0 := by
  rintro ⟨texts, hne, hlt⟩
  have hsq : ∀ x ∈ (texts.map analyzeWritingSample).map (·.sentiment.polarity),
      x ^ 2 ≤ 1 := by
    intro x hx
    simp only [List.map_map, List.mem_map, Function.comp] at hx
    obtain ⟨t, _, rfl⟩ := hx
    exact polarity_sq_le_one (pyLower t)
  have hne2 : (texts.map analyzeWritingSample).map (·.sentiment.polarity) ≠ [] := by
    intro hc
    apply hne
    simpa using hc
  have h0 := consistency_nonneg _ hne2 hsq
  have e : (determineSentimentTendencies (texts.map analyzeWritingSample)).sentiment_consistency
      = 1 - npStd ((texts.map analyzeWritingSample).map (·.sentiment.polarity)) := rfl
  rw [e] at hlt
  linarith

/-- C4 amended: for every non-empty extractor-produced metrics list, the
aggregated sentiment consistency equals 1 minus the (unclamped) population
standard deviation of the per-sample polarities, and — since every polarity
lies in [−1, 1] — it is always non-negative: bimodal inputs can reach 0 but
never a negative value. -/
theorem C4_amended_consistency_nonneg (texts : List String) (hne : texts ≠ []) :
    (determineSentimentTendencies (texts.map analyzeWritingSample)).sentiment_consistency
      = 1 - npStd ((texts.map analyzeWritingSample).map (·.sentiment.polarity)) ∧
    0 ≤ (determineSentimentTendencies (texts.map analyzeWritingSample)).sentiment_consistency := by
  have hsq : ∀ x ∈ (texts.map analyzeWritingSample).map (·.sentiment.polarity),
      x ^ 2 ≤ 1 := by
    intro x hx
    simp only [List.map_map, List.mem_map, Function.comp] at hx
    obtain ⟨t, _, rfl⟩ := hx
    exact polarity_sq_le_one (pyLower t)
  have hne2 : (texts.map analyzeWritingSample).map (·.sentiment.polarity) ≠ [] := by
    intro hc
    apply hne
    simpa using hc
  exact ⟨rfl, consistency_nonneg _ hne2 hsq⟩

/-- Witness for C4's amended statement at the maximally bimodal input
(`good` has polarity 1, `bad` has polarity −1). -/
theorem C4_amended_consistency_nonneg_witness :
    0 ≤ (determineSentimentTendencies
        (["good", "bad"].map analyzeWritingSample)).sentiment_consistency :=
  (C4_amended_consistency_nonneg ["good", "bad"] (List.cons_ne_nil _ _)).2

/-! ## The break-at-conjunction loop (C7) -/

/-- The enumerate loop of `_break_long_sentences` stops at position `i`
(absolute index `k + i`) when that token is the first conjunction past
index 8. -/
theorem findBreakIdx_eq_some (ws : List String) (k i : Nat) (hi : i < ws.length)
    (hc : isConjWord (ws.getD i "") = true ∧ 8 < k + i)
    (hmin : ∀ j, j < i → ¬(isConjWord (ws.getD j "") = true ∧ 8 < k + j)) :
    findBreakIdx k ws = some (k + i) := by
  induction ws generalizing k i with
  | nil => simp at hi
  | cons w ws ih =>
    cases i with
    | zero =>
      simp only [List.getD_cons_zero, Nat.add_zero] at hc
      simp only [Nat.add_zero]
      unfold findBreakIdx
      rw [if_pos]
      simp [hc.1, hc.2]
    | succ j =>
      have h0 := hmin 0 (Nat.succ_pos j)
      simp only [List.getD_cons_zero, Nat.add_zero] at h0
      simp only [List.getD_cons_succ] at hc
      unfold findBreakIdx
      rw [if_neg]
      · have harith : k + (j + 1) = (k + 1) + j := by omega
        rw [harith]
        apply ih (k + 1) j (by simpa using hi)
        · exact ⟨hc.1, by omega⟩
        · intro j' hj' hcon
          apply hmin (j' + 1) (by omega)
          simp only [List.getD_cons_succ]
          exact ⟨hcon.1, by omega⟩
      · intro hcond
        apply h0
        simpa using hcond

/-- The enumerate loop finds nothing when no token is a late conjunction. -/
theorem findBreakIdx_eq_none (ws : List String) (k : Nat)
    (h : ∀ j, j < ws.length → ¬(isConjWord (ws.getD j "") = true ∧ 8 < k + j)) :
    findBreakIdx k ws = none := by
  induction ws generalizing k with
  | nil => rfl
  | cons w ws ih =>
    unfold findBreakIdx
    rw [if_neg]
    · apply ih
      intro j hj hcon
      apply h (j + 1) (by simpa using Nat.succ_lt_succ hj)
      simp only [List.getD_cons_succ]
      exact ⟨hcon.1, by omega⟩
    · intro hcond
      apply h 0 (by simp)
      simp only [List.getD_cons_zero, Nat.add_zero]
      simpa using hcond

/-- C7: with the target average sentence length below 12 the refiner's
splitting pass processes each sentence as follows — a sentence of more than
25 words whose first conjunction past word index 8 sits at index `i` becomes
exactly the two parts before and after that conjunction (the conjunction is
dropped); a sentence of more than 25 words with no late conjunction stays
intact; a sentence of at most 25 words passes through unchanged. -/
theorem C7_break_splits_at_first_late_conjunction :
    (∀ s : String, ∀ i : Nat,
      25 < (pySplitWhite s).length →
      i < (pySplitWhite s).length →
      isConjWord ((pySplitWhite s).getD i "") = true →
      8 < i →
      (∀ j, j < i → ¬(isConjWord ((pySplitWhite s).getD j "") = true ∧ 8 < j)) →
      breakOneSentence s
        = [joinStr " " ((pySplitWhite s).take i),
           joinStr " " ((pySplitWhite s).drop (i + 1))]) ∧
    (∀ s : String,
      25 < (pySplitWhite s).length →
      (∀ j, j < (pySplitWhite s).length →
        ¬(isConjWord ((pySplitWhite s).getD j "") = true ∧ 8 < j)) →
      breakOneSentence s = [s]) ∧
    (∀ s : String, ¬ 25 < (pySplitWhite s).length → breakOneSentence s = [s]) := by
  have e : ∀ s : String, breakOneSentence s
      = if 25 < (pySplitWhite s).length then
          match findBreakIdx 0 (pySplitWhite s) with
          | some i => [joinStr " " ((pySplitWhite s).take i),
              joinStr " " ((pySplitWhite s).drop (i + 1))]
          | none => [s]
        else [s] := fun _ => rfl
  refine ⟨?_, ?_, ?_⟩
  · intro s i hlen hi hconj h8 hmin
    have hfind : findBreakIdx 0 (pySplitWhite s) = some i := by
      have hres := findBreakIdx_eq_some (pySplitWhite s) 0 i hi
        ⟨hconj, by omega⟩ ?_
      · simpa using hres
      · intro j hj hcon
        exact hmin j hj ⟨hcon.1, by omega⟩
    rw [e, if_pos hlen, hfind]
  · intro s hlen hmin
    have hfind : findBreakIdx 0 (pySplitWhite s) = none := by
      apply findBreakIdx_eq_none
      intro j hj hcon
      exact hmin j hj ⟨hcon.1, by omega⟩
    rw [e, if_pos hlen, hfind]
  · intro s hlen
    rw [e, if_neg hlen]

/-- Witness for C7 at the 27-word sentence with its conjunction at index 9:
the pieces are the 9 words before and the 17 words after it. -/
theorem C7_break_splits_at_first_late_conjunction_witness :
    breakOneSentence longSentence
      = [joinStr " " ((pySplitWhite longSentence).take 9),
         joinStr " " ((pySplitWhite longSentence).drop 10)] :=
  C7_break_splits_at_first_late_conjunction.1 longSentence 9 (by decide) (by decide)
    (by decide) (by decide) (by decide)

/-! ## Character-level lemmas for the refiner (C10) -/

/-- `Char.ofNat` inverts `toNat` on the basic plane. -/
theorem charToNat_ofNat (n : Nat) (h : n < 55296) : (Char.ofNat n).toNat = n := by
  unfold Char.ofNat
  rw [dif_pos (Or.inl h)]
  rfl

/-- Lower-casing either fixes a character or produces a lower-case letter. -/
theorem pyLowerChar_shape (c : Char) :
    pyLowerChar c = c ∨ (97 ≤ (pyLowerChar c).toNat ∧ (pyLowerChar c).toNat ≤ 122) := by
  unfold pyLowerChar
  split
  · rename_i h
    right
    simp only [Bool.and_eq_true, decide_eq_true_eq] at h
    have h1 : (65 : Nat) ≤ c.toNat := h.1
    have h2 : c.toNat ≤ 90 := h.2
    rw [charToNat_ofNat (c.toNat + 32) (by omega)]
    omega
  · left
    rfl

/-- Lower-casing never produces a non-letter such as `!` or `?` from a
different character. -/
theorem pyLowerChar_ne (c d : Char) (hd : d.toNat < 97 ∨ 122 < d.toNat)
    (hne : c ≠ d) : pyLowerChar c ≠ d := by
  rcases pyLowerChar_shape c with h | h
  · rw [h]; exact hne
  · intro he
    rw [he] at h
    omega

/-- Every character of every piece of `splitOnPred` comes from the input and
is not a delimiter. -/
theorem splitOnPred_pieces (p : Char → Bool) (cs : List Char) :
    ∀ piece ∈ splitOnPred p cs, ∀ c ∈ piece, c ∈ cs ∧ p c = false := by
  induction cs with
  | nil =>
    intro piece hp c hc
    simp only [splitOnPred, List.mem_singleton] at hp
    subst hp
    simp at hc
  | cons a t ih =>
    intro piece hp c hc
    rw [show splitOnPred p (a :: t)
        = if p a then [] :: splitOnPred p t
          else match splitOnPred p t with
            | [] => [[a]]
            | h :: t' => (a :: h) :: t' from rfl] at hp
    split at hp
    · rcases List.mem_cons.mp hp with h1 | h1
      · subst h1; simp at hc
      · have := ih piece h1 c hc
        exact ⟨List.mem_cons_of_mem a this.1, this.2⟩
    · rename_i hpa
      have hpa' : p a = false := by
        revert hpa
        cases p a <;> simp
      rcases hr : splitOnPred p t with _ | ⟨h0, t'⟩
      · simp only [hr] at hp
        simp only [List.mem_singleton] at hp
        subst hp
        simp only [List.mem_singleton] at hc
        subst hc
        exact ⟨List.mem_cons_self c t, hpa'⟩
      · simp only [hr] at hp
        rcases List.mem_cons.mp hp with h1 | h1
        · subst h1
          rcases List.mem_cons.mp hc with h2 | h2
          · subst h2
            exact ⟨List.mem_cons_self c t, hpa'⟩
          · have hm : h0 ∈ splitOnPred p t := by rw [hr]; exact List.mem_cons_self _ _
            have := ih h0 hm c h2
            exact ⟨List.mem_cons_of_mem a this.1, this.2⟩
        · have hm : piece ∈ splitOnPred p t := by
            rw [hr]; exact List.mem_cons_of_mem _ h1
          have := ih piece hm c hc
          exact ⟨List.mem_cons_of_mem a this.1, this.2⟩

/-- Stripping only removes characters. -/
theorem mem_pyStripL (cs : List Char) (c : Char) (h : c ∈ pyStripL cs) : c ∈ cs := by
  unfold pyStripL at h
  rw [List.mem_reverse] at h
  have h1 := (List.dropWhile_sublist _).subset h
  rw [List.mem_reverse] at h1
  exact (List.dropWhile_sublist _).subset h1

/-- Dropping leading whitespace from a dot-terminated list keeps the dot. -/
theorem dropWhile_append_dot (u : List Char) :
    (u ++ ['.']).dropWhile pyIsSpace = u.dropWhile pyIsSpace ++ ['.'] := by
  induction u with
  | nil => decide
  | cons a u ih =>
    rw [List.cons_append, List.dropWhile_cons, List.dropWhile_cons]
    by_cases hp : pyIsSpace a
    · simp only [hp, if_true]
      exact ih
    · simp only [hp]
      simp [List.cons_append]

/-- Stripping a dot-terminated list keeps it dot-terminated. -/
theorem pyStripL_endsDot (cs : List Char) (h : endsDot cs) : endsDot (pyStripL cs) := by
  obtain ⟨u, rfl⟩ := h
  refine ⟨u.dropWhile pyIsSpace, ?_⟩
  unfold pyStripL
  rw [dropWhile_append_dot]
  have h1 : (u.dropWhile pyIsSpace ++ ['.']).reverse
      = '.' :: (u.dropWhile pyIsSpace).reverse := by simp
  rw [h1, List.dropWhile_cons, if_neg (by decide)]
  simp

/-- A character of a separator-joined list comes from the separator or from
one of the pieces. -/
theorem mem_joinStr (sep : String) (l : List String) (c : Char)
    (h : c ∈ (joinStr sep l).data) : c ∈ sep.data ∨ ∃ s ∈ l, c ∈ s.data := by
  induction l with
  | nil => simp [joinStr, String.data] at h
  | cons s rest ih =>
    cases rest with
    | nil =>
      right
      exact ⟨s, List.mem_cons_self s [], h⟩
    | cons s2 rest2 =>
      rw [show joinStr sep (s :: s2 :: rest2)
          = s ++ sep ++ joinStr sep (s2 :: rest2) from rfl] at h
      rw [String.data_append, String.data_append] at h
      rcases List.mem_append.mp h with h1 | h1
      · rcases List.mem_append.mp h1 with h2 | h2
        · right; exact ⟨s, List.mem_cons_self s _, h2⟩
        · left; exact h2
      · rcases ih h1 with h2 | ⟨t, ht, hc⟩
        · left; exact h2
        · right; exact ⟨t, List.mem_cons_of_mem s ht, hc⟩

/-- Appending preserves the absence of `!`/`?`. -/
theorem noBQ_append (a b : List Char) (ha : noBQ a) (hb : noBQ b) : noBQ (a ++ b) := by
  intro c hc
  rcases List.mem_append.mp hc with h | h
  · exact ha c h
  · exact hb c h

/-- Lower-casing preserves the absence of `!`/`?`. -/
theorem pyLower_noBQ (s : String) (h : noBQ s.data) : noBQ (pyLower s).data := by
  intro c hc
  simp only [pyLower, List.mem_map] at hc
  obtain ⟨c', hc', rfl⟩ := hc
  have hcc := h c' hc'
  exact ⟨pyLowerChar_ne c' '!' (Or.inl (by decide)) hcc.1,
    pyLowerChar_ne c' '?' (Or.inl (by decide)) hcc.2⟩

/-- Joining `!`/`?`-free pieces with a `!`/`?`-free separator stays free of
them. -/
theorem joinStr_noBQ (sep : String) (l : List String) (hsep : noBQ sep.data)
    (h : ∀ s ∈ l, noBQ s.data) : noBQ (joinStr sep l).data := by
  intro c hc
  rcases mem_joinStr sep l c hc with h1 | ⟨s, hs, hcs⟩
  · exact hsep c h1
  · exact h s hs c hcs

/-- The substitution scan on the empty text is empty. -/
theorem subWordAux_nil (pat rep : List Char) (n : Nat) (b : Bool) :
    subWordAux pat rep n b [] = [] := by
  cases n <;> rfl

/-- Every output character of the substitution scan comes from the
replacement or from the input. -/
theorem mem_subWordAux (pat rep : List Char) :
    ∀ (n : Nat) (b : Bool) (cs : List Char) (c : Char),
      c ∈ subWordAux pat rep n b cs → c ∈ rep ∨ c ∈ cs := by
  intro n
  induction n with
  | zero =>
    intro b cs c h
    right
    exact h
  | succ n ih =>
    intro b cs c h
    cases cs with
    | nil =>
      rw [subWordAux_nil] at h
      exact absurd h (List.not_mem_nil c)
    | cons a rest =>
      simp only [subWordAux] at h
      split at h
      · rcases List.mem_append.mp h with h1 | h1
        · left; exact h1
        · rcases ih _ _ _ h1 with h2 | h2
          · left; exact h2
          · right; exact List.mem_of_mem_drop h2
      · rcases List.mem_cons.mp h with h1 | h1
        · right; rw [h1]; exact List.mem_cons_self a rest
        · rcases ih _ _ _ h1 with h2 | h2
          · left; exact h2
          · right; exact List.mem_cons_of_mem a h2

/-- A case-insensitive match requires at least the pattern's length. -/
theorem matchesCI_length (cs pat : List Char) (h : matchesCI cs pat = true) :
    pat.length ≤ cs.length := by
  induction pat generalizing cs with
  | nil => simp
  | cons p ps ih =>
    cases cs with
    | nil => simp [matchesCI] at h
    | cons c rest =>
      simp only [matchesCI, Bool.and_eq_true] at h
      have := ih rest h.2
      simp only [List.length_cons]
      omega

/-- A case-insensitive match determines each matched character's lower case. -/
theorem matchesCI_getD (cs pat : List Char) (h : matchesCI cs pat = true) :
    ∀ k, k < pat.length → pyLowerChar (cs.getD k ' ') = pat.getD k ' ' := by
  induction pat generalizing cs with
  | nil =>
    intro k hk
    simp at hk
  | cons p ps ih =>
    cases cs with
    | nil => simp [matchesCI] at h
    | cons c rest =>
      simp only [matchesCI, Bool.and_eq_true] at h
      intro k hk
      cases k with
      | zero =>
        simp only [List.getD_cons_zero]
        exact eq_of_beq h.1
      | succ k' =>
        simp only [List.getD_cons_succ]
        exact ih rest h.2 k' (by simpa using hk)

/-- An all-letter pattern cannot case-insensitively match the single-character
text consisting of a period. -/
theorem matchesCI_dot (pat : List Char) (hne : pat ≠ [])
    (halpha : ∀ p ∈ pat, p.isAlpha = true) : matchesCI ['.'] pat = false := by
  cases pat with
  | nil => exact absurd rfl hne
  | cons p ps =>
    cases ps with
    | nil =>
      simp only [matchesCI, Bool.and_true]
      have hp := halpha p (List.mem_cons_self p [])
      rw [show pyLowerChar '.' = '.' from by decide]
      rw [beq_eq_false_iff_ne]
      intro he
      rw [← he] at hp
      exact absurd hp (by decide)
    | cons q qs =>
      simp [matchesCI]

/-- The element just past `u` in `u ++ [c]` is `c`. -/
theorem getD_append_len (u : List Char) (c d : Char) : (u ++ [c]).getD u.length d = c := by
  induction u with
  | nil => rfl
  | cons a t ih => simp [ih]

/-- An in-bounds `getD` returns a list element. -/
theorem getD_mem_of_lt (l : List Char) (k : Nat) (d : Char) (h : k < l.length) :
    l.getD k d ∈ l := by
  induction l generalizing k with
  | nil => simp at h
  | cons a t ih =>
    cases k with
    | zero => simp
    | succ k' =>
      simp only [List.getD_cons_succ]
      exact List.mem_cons_of_mem a (ih k' (by simpa using h))

/-- The substitution scan keeps a dot-terminated text dot-terminated when the
pattern is a non-empty all-letter word. -/
theorem subWordAux_endsDot (pat rep : List Char) (hne : pat ≠ [])
    (halpha : ∀ p ∈ pat, p.isAlpha = true) :
    ∀ (n : Nat) (b : Bool) (cs : List Char), endsDot cs →
      endsDot (subWordAux pat rep n b cs) := by
  intro n
  induction n with
  | zero =>
    intro b cs h
    exact h
  | succ n ih =>
    intro b cs h
    obtain ⟨u, rfl⟩ := h
    cases u with
    | nil =>
      simp only [List.nil_append]
      simp only [subWordAux]
      rw [if_neg]
      · refine ⟨[], ?_⟩
        rw [subWordAux_nil]
        rfl
      · intro hcond
        simp only [Bool.and_eq_true] at hcond
        have hm := hcond.1.2
        rw [matchesCI_dot pat hne halpha] at hm
        exact absurd hm (by simp)
    | cons a u' =>
      rw [List.cons_append]
      simp only [subWordAux]
      split
      · rename_i hcond
        simp only [Bool.and_eq_true] at hcond
        have hm := hcond.1.2
        have hlen := matchesCI_length _ _ hm
        cases hpat : pat.length with
        | zero =>
          exact absurd (List.length_eq_zero.mp hpat) hne
        | succ L =>
          rw [List.drop_succ_cons]
          by_cases hL : L ≤ u'.length
          · have hdrop : (u' ++ ['.']).drop L = u'.drop L ++ ['.'] :=
              List.drop_append_of_le_length hL
            rw [hdrop]
            obtain ⟨v, hv⟩ := ih _ (u'.drop L ++ ['.']) ⟨u'.drop L, rfl⟩
            rw [hv]
            exact ⟨rep ++ v, by simp⟩
          · exfalso
            rw [hpat] at hlen
            simp only [List.length_cons, List.length_append, List.length_singleton,
              List.length_nil] at hlen
            have hLu : L = u'.length + 1 := by omega
            have hget := matchesCI_getD _ _ hm L (by rw [hpat]; omega)
            have hcs : (a :: (u' ++ ['.'])).getD L ' ' = '.' := by
              rw [hLu]
              simp only [List.getD_cons_succ]
              exact getD_append_len u' '.' ' '
            rw [hcs] at hget
            have hmem : pat.getD L ' ' ∈ pat :=
              getD_mem_of_lt pat L ' ' (by rw [hpat]; omega)
            have halp := halpha _ hmem
            rw [← hget] at halp
            rw [show pyLowerChar '.' = '.' from by decide] at halp
            exact absurd halp (by decide)
      · obtain ⟨v, hv⟩ := ih (!isWordChar a) (u' ++ ['.']) ⟨u', rfl⟩
        rw [hv]
        exact ⟨a :: v, by simp⟩

/-- A text with a period appended ends with a period. -/
theorem endsDot_append_dot (s : String) : endsDot ((s ++ ".").data) :=
  ⟨s.data, by rw [String.data_append]⟩

/-- String-level substitution preserves the absence of `!`/`?` when the
replacement has none. -/
theorem subWord_noBQ (pat rep t : String) (hrep : noBQ rep.data) (h : noBQ t.data) :
    noBQ (subWord pat rep t).data := by
  intro c hc
  rcases mem_subWordAux pat.data rep.data _ _ _ c hc with h1 | h1
  · exact hrep c h1
  · exact h c h1

/-- String-level substitution with a non-empty all-letter pattern keeps a
dot-terminated text dot-terminated. -/
theorem subWord_endsDot (pat rep t : String) (hne : pat.data ≠ [])
    (halpha : ∀ p ∈ pat.data, p.isAlpha = true) (h : endsDot t.data) :
    endsDot (subWord pat rep t).data :=
  subWordAux_endsDot pat.data rep.data hne halpha _ _ _ h

/-- Folding a substitution map preserves the absence of `!`/`?` when every
replacement has none. -/
theorem foldSub_noBQ (maps : List (String × String)) (t : String)
    (hmaps : ∀ pr ∈ maps, noBQ pr.2.data) (h : noBQ t.data) :
    noBQ ((maps.foldl (fun acc pr => subWord pr.1 pr.2 acc) t).data) := by
  induction maps generalizing t with
  | nil => exact h
  | cons m rest ih =>
    simp only [List.foldl_cons]
    exact ih _ (fun pr hpr => hmaps pr (List.mem_cons_of_mem m hpr))
      (subWord_noBQ _ _ _ (hmaps m (List.mem_cons_self m rest)) h)

/-- Folding a substitution map of non-empty all-letter patterns keeps a
dot-terminated text dot-terminated. -/
theorem foldSub_endsDot (maps : List (String × String)) (t : String)
    (hmaps : ∀ pr ∈ maps, pr.1.data ≠ [] ∧ ∀ p ∈ pr.1.data, p.isAlpha = true)
    (h : endsDot t.data) :
    endsDot ((maps.foldl (fun acc pr => subWord pr.1 pr.2 acc) t).data) := by
  induction maps generalizing t with
  | nil => exact h
  | cons m rest ih =>
    simp only [List.foldl_cons]
    have hm := hmaps m (List.mem_cons_self m rest)
    exact ih _ (fun pr hpr => hmaps pr (List.mem_cons_of_mem m hpr))
      (subWord_endsDot _ _ _ hm.1 hm.2 h)

/-- The combining loop of `_combine_short_sentences` preserves the absence
of `!`/`?`. -/
theorem combineLoop_noBQ : ∀ l : List String, (∀ s ∈ l, noBQ s.data) →
    ∀ s ∈ combineLoop l, noBQ s.data
  | [], _, s, hs => by simp [combineLoop] at hs
  | [s1], h, s, hs => by
    simp only [combineLoop, List.mem_singleton] at hs
    subst hs
    exact h s (List.mem_cons_self _ _)
  | s1 :: s2 :: rest, h, s, hs => by
    simp only [combineLoop] at hs
    split at hs
    · rcases List.mem_cons.mp hs with h1 | h1
      · subst h1
        rw [show (s1 ++ ", and " ++ pyLower s2).data
            = (s1.data ++ (", and ").data) ++ (pyLower s2).data from by
          rw [String.data_append, String.data_append]]
        apply noBQ_append
        · exact noBQ_append _ _ (h s1 (List.mem_cons_self _ _)) (by decide)
        · exact pyLower_noBQ s2 (h s2 (List.mem_cons_of_mem _ (List.mem_cons_self _ _)))
      · exact combineLoop_noBQ rest
          (fun x hx => h x (List.mem_cons_of_mem _ (List.mem_cons_of_mem _ hx))) s h1
    · rcases List.mem_cons.mp hs with h1 | h1
      · subst h1
        exact h s (List.mem_cons_self _ _)
      · exact combineLoop_noBQ (s2 :: rest)
          (fun x hx => h x (List.mem_cons_of_mem _ hx)) s h1

/-- Every sentence piece the refiner's split/strip preprocessing produces is
free of `.`, `!`, `?` (and in particular of `!`/`?`). -/
theorem sentencePieces_noBQ (text : String) :
    ∀ s ∈ ((((splitOnPred isSentencePunct text.data).map pyStripL).filter
        (· ≠ [])).map (⟨·⟩ : List Char → String)), noBQ s.data := by
  intro s hs
  simp only [List.mem_map, List.mem_filter] at hs
  obtain ⟨piece, ⟨hp1, _⟩, rfl⟩ := hs
  obtain ⟨piece0, hp0, rfl⟩ := hp1
  intro c hc
  have h0 := mem_pyStripL piece0 c hc
  have hsp := splitOnPred_pieces isSentencePunct text.data piece0 hp0 c h0
  constructor
  · intro heq
    subst heq
    simp [isSentencePunct] at hsp
  · intro heq
    subst heq
    simp [isSentencePunct] at hsp

/-- Every word of `str.split()` only uses characters of its input. -/
theorem pySplitWhite_chars (s : String) :
    ∀ w ∈ pySplitWhite s, ∀ c ∈ w.data, c ∈ s.data := by
  intro w hw c hc
  simp only [pySplitWhite, List.mem_map, List.mem_filter] at hw
  obtain ⟨piece, ⟨hp1, _⟩, rfl⟩ := hw
  exact (splitOnPred_pieces pyIsSpace s.data piece hp1 c hc).1

/-- The split pass keeps each produced piece free of `!`/`?`. -/
theorem breakOneSentence_noBQ (s : String) (h : noBQ s.data) :
    ∀ t ∈ breakOneSentence s, noBQ t.data := by
  have hwords : ∀ w ∈ pySplitWhite s, noBQ w.data := by
    intro w hw c hc
    exact h c (pySplitWhite_chars s w hw c hc)
  have e : breakOneSentence s
      = if 25 < (pySplitWhite s).length then
          match findBreakIdx 0 (pySplitWhite s) with
          | some i => [joinStr " " ((pySplitWhite s).take i),
              joinStr " " ((pySplitWhite s).drop (i + 1))]
          | none => [s]
        else [s] := rfl
  intro t ht
  rw [e] at ht
  split at ht
  · rcases hf : findBreakIdx 0 (pySplitWhite s) with _ | i <;> rw [hf] at ht
    · simp only [List.mem_singleton] at ht
      subst ht
      exact h
    · simp only [List.mem_cons, List.not_mem_nil, or_false] at ht
      rcases ht with rfl | rfl
      · exact joinStr_noBQ _ _ (by decide)
          (fun w hw => hwords w (List.mem_of_mem_take hw))
      · exact joinStr_noBQ _ _ (by decide)
          (fun w hw => hwords w (List.mem_of_mem_drop hw))
  · simp only [List.mem_singleton] at ht
    subst ht
    exact h

/-- `_break_long_sentences` output: no `!`/`?`, and a final period. -/
theorem breakLongSentences_clean (text : String) :
    noBQ (breakLongSentences text).data ∧ endsDot (breakLongSentences text).data := by
  have e : breakLongSentences text
      = joinStr ". " (((((splitOnPred isSentencePunct text.data).map pyStripL).filter
          (· ≠ [])).map (⟨·⟩ : List Char → String)).flatMap breakOneSentence) ++ "." := rfl
  constructor
  · rw [e]
    intro c hc
    rw [String.data_append] at hc
    rcases List.mem_append.mp hc with h1 | h1
    · refine joinStr_noBQ _ _ (by decide) ?_ c h1
      intro t ht
      rw [List.mem_flatMap] at ht
      obtain ⟨orig, ho, ht2⟩ := ht
      exact breakOneSentence_noBQ orig (sentencePieces_noBQ text orig ho) t ht2
    · simp only [List.mem_singleton] at h1
      subst h1
      decide
  · rw [e]
    exact endsDot_append_dot _

/-- `_combine_short_sentences` output: no `!`/`?`, and a final period. -/
theorem combineShortSentences_clean (text : String) :
    noBQ (combineShortSentences text).data ∧ endsDot (combineShortSentences text).data := by
  have e : combineShortSentences text
      = joinStr ". " (combineLoop ((((splitOnPred isSentencePunct text.data).map
          pyStripL).filter (· ≠ [])).map (⟨·⟩ : List Char → String))) ++ "." := rfl
  constructor
  · rw [e]
    intro c hc
    rw [String.data_append] at hc
    rcases List.mem_append.mp hc with h1 | h1
    · exact joinStr_noBQ _ _ (by decide)
        (combineLoop_noBQ _ (sentencePieces_noBQ text)) c h1
    · simp only [List.mem_singleton] at h1
      subst h1
      decide
  · rw [e]
    exact endsDot_append_dot _

/-- C10: whenever the refiner's sentence-length adjustment runs (target
average sentence length below 12 or above 20), the refined text contains no
`!` or `?` and ends with a period, regardless of the formality pass that
follows. -/
theorem C10_refined_text_has_uniform_periods (p : StyleProfile) (t : String)
    (h : p.avg_sentence_length < 12 ∨ 20 < p.avg_sentence_length) :
    noBQ (refineWithStyle t p).data ∧ endsDot (refineWithStyle t p).data := by
  have h1 : noBQ (if p.avg_sentence_length < 12 then breakLongSentences t
        else if 20 < p.avg_sentence_length then combineShortSentences t else t).data ∧
      endsDot (if p.avg_sentence_length < 12 then breakLongSentences t
        else if 20 < p.avg_sentence_length then combineShortSentences t else t).data := by
    rcases h with hlt | hgt
    · rw [if_pos hlt]
      exact breakLongSentences_clean t
    · rw [if_neg (by linarith), if_pos hgt]
      exact combineShortSentences_clean t
  set t1 := if p.avg_sentence_length < 12 then breakLongSentences t
    else if 20 < p.avg_sentence_length then combineShortSentences t else t with ht1
  have h2 : noBQ (if p.formality_preference = "casual" then makeMoreCasual t1
        else if p.formality_preference = "formal" then makeMoreFormal t1 else t1).data ∧
      endsDot (if p.formality_preference = "casual" then makeMoreCasual t1
        else if p.formality_preference = "formal" then makeMoreFormal t1 else t1).data := by
    split
    · exact ⟨foldSub_noBQ casualMap t1 (by decide) h1.1,
        foldSub_endsDot casualMap t1 (by decide) h1.2⟩
    · split
      · exact ⟨foldSub_noBQ formalMap t1 (by decide) h1.1,
          foldSub_endsDot formalMap t1 (by decide) h1.2⟩
      · exact h1
  set t2 := if p.formality_preference = "casual" then makeMoreCasual t1
    else if p.formality_preference = "formal" then makeMoreFormal t1 else t1 with ht2
  have he : refineWithStyle t p = pyStrip t2 := rfl
  rw [he]
  exact ⟨fun c hc => h2.1 c (mem_pyStripL _ c hc), pyStripL_endsDot _ h2.2⟩

/-- Witness for C10: refining a text with both `!` and `?` under a profile
with target sentence length 8 (casual formality). -/
theorem C10_refined_text_has_uniform_periods_witness :
    noBQ (refineWithStyle "Hello there! Are you ok?" shortCasualProfile).data ∧
    endsDot (refineWithStyle "Hello there! Are you ok?" shortCasualProfile).data :=
  C10_refined_text_has_uniform_periods shortCasualProfile "Hello there! Are you ok?"
    (Or.inl (show (8 : ℚ) < 12 by norm_num))
